import Mathlib

/-!
Verification of the agent-orchestrator workflow engine.

This file gives a shallow embedding of the parts of the code base that the
checked claims are about, and proves or refutes each claim against it:

* `agent_orchestrator/workflows/state.py` — state reducers
  (`_take_last`, `_merge_dicts`) and the `WorkflowState` schema.
* `agent_orchestrator/workflows/nodes/parallel_node.py` — the parallel
  dispatcher and the join aggregator.
* `agent_orchestrator/workflows/nodes/router_node.py` — conditional routing.
* `agent_orchestrator/workflows/nodes/agent_node.py` — the bounded
  tool-calling loop and `_build_state_updates`.
* `agent_orchestrator/agents/executor.py` — `AgentExecutor.execute`.
* `agent_orchestrator/services/execution_service.py` — the execution record
  lifecycle (`execute`, `execute_stream`, `cancel`, `resume`).
* `agent_orchestrator/services/workflow_service.py` — `_validate_workflow`.
* `agent_orchestrator/workflows/compiler.py` — recursive sub-graph
  compilation.

Python values flowing through the state are modelled by the JSON-like type
`PyVal`; Python dicts are association lists in insertion order, which is the
iteration order of Python dicts; timestamps are naturals.
-/

/-- JSON-like values of the workflow state (Python `Any` restricted to the
JSON-serialisable shapes the engine stores). `vNone` is Python `None`. -/
inductive PyVal where
  | vNone : PyVal
  | vBool (b : Bool) : PyVal
  | vInt (n : Int) : PyVal
  | vStr (s : String) : PyVal
  | vList (xs : List PyVal) : PyVal
  | vDict (entries : List (String × PyVal)) : PyVal

/-- Python `value is None`. -/
def PyVal.isNoneV : PyVal → Bool
  | .vNone => true
  | _ => false

/-- Python `d[k]` lookup on a dict modelled as an insertion-ordered
association list (keys are unique by construction of `dictSet`). -/
def dictGet (d : List (String × PyVal)) (k : String) : Option PyVal :=
  (d.find? (fun p => p.1 = k)).map (·.2)

/-- Python `d[k] = v`: overwrite in place if the key exists, else append
(new keys go to the end of the insertion order). -/
def dictSet (d : List (String × PyVal)) (k : String) (v : PyVal) :
    List (String × PyVal) :=
  if d.any (fun p => p.1 = k) then
    d.map (fun p => if p.1 = k then (k, v) else p)
  else
    d ++ [(k, v)]

/-- Python `d.update(u)`: fold every entry of `u` into `d`. -/
def dictUpdate (d u : List (String × PyVal)) : List (String × PyVal) :=
  u.foldl (fun acc kv => dictSet acc kv.1 kv.2) d

/-- Python truthiness (`if result:`) for the modelled value shapes. -/
def truthy : PyVal → Bool
  | .vNone => false
  | .vBool b => b
  | .vInt n => n != 0
  | .vStr s => s != ""
  | .vList xs => !xs.isEmpty
  | .vDict d => !d.isEmpty

/-- Python `str()` coercion, as used by the `concat` join strategy.  The
rendering of containers abbreviates CPython's `repr`-based form; the claims
never depend on it. -/
def pyStr : PyVal → String
  | .vNone => "None"
  | .vBool b => if b then "True" else "False"
  | .vInt n => toString n
  | .vStr s => s
  | .vList _ => "[...]"
  | .vDict _ => "{...}"

/-- The workflow state of `workflows/state.py` (`WorkflowState`), plus the
`parallel_item` / `parallel_index` keys the parallel dispatcher injects into
the plain dict. -/
structure WState where
  input : PyVal
  messages : List PyVal
  intermediate : List (String × PyVal)
  output : Option PyVal
  currentNode : Option String
  error : Option String
  metadata : List (String × PyVal)
  parallelItem : Option PyVal
  parallelIndex : Option Nat

/-- The definition `_take_last` from `workflows/state.py`: `right if right is not None
else left`. -/
def takeLast (left right : Option PyVal) : Option PyVal :=
  match right with
  | some v => some v
  | none => left

/-- The definition `_merge_dicts` from `workflows/state.py`: `{**(left or {}), **(right or {})}`. -/
def mergeDicts (left right : List (String × PyVal)) : List (String × PyVal) :=
  dictUpdate left right

/-- The reducers `WorkflowState` (`workflows/state.py`) binds to its keys via
`Annotated[...]`. -/
inductive Reducer where
  | addMessages : Reducer
  | mergeDictsR : Reducer
  | takeLastR : Reducer
  | noReducer : Reducer
  deriving DecidableEq, Repr

/-- Which reducer each `WorkflowState` key is annotated with in
`workflows/state.py` (keys without an annotation get plain overwrite). -/
def stateKeyReducer : String → Reducer
  | "messages" => .addMessages
  | "intermediate" => .mergeDictsR
  | "output" => .takeLastR
  | "current_node" => .takeLastR
  | "error" => .takeLastR
  | "metadata" => .mergeDictsR
  | _ => .noReducer

/-! ## Execution records (`database/models/execution.py`, `services/execution_service.py`) -/

/-- The definition `ExecutionStatus` from `database/models/execution.py`. -/
inductive ExecutionStatus where
  | pending : ExecutionStatus
  | running : ExecutionStatus
  | completed : ExecutionStatus
  | failed : ExecutionStatus
  | cancelled : ExecutionStatus
  deriving DecidableEq, Repr

/-- The string code of a status, as it appears in error messages. -/
def statusStr : ExecutionStatus → String
  | .pending => "pending"
  | .running => "running"
  | .completed => "completed"
  | .failed => "failed"
  | .cancelled => "cancelled"

/-- Terminal statuses: the ones `cancel` refuses and no service method ever
leaves. -/
def isTerminal (s : ExecutionStatus) : Bool :=
  s = .completed || s = .failed || s = .cancelled

/-- The `Execution` row (`database/models/execution.py`).  Workflow ids are
naturals, timestamps are naturals, JSON columns are `Option PyVal`. -/
structure Execution where
  workflowId : Nat
  threadId : String
  status : ExecutionStatus
  inputData : Option PyVal
  outputData : Option PyVal
  errorMessage : Option String
  startedAt : Option Nat
  completedAt : Option Nat

/-- The `ExecutionStep` row (`database/models/execution.py`). -/
structure ExecutionStep where
  nodeId : String
  status : ExecutionStatus
  outputData : Option PyVal
  errorMessage : Option String
  startedAt : Option Nat
  completedAt : Option Nat

/-- The final graph state `ExecutionService.execute` reads back from
`graph.ainvoke`: `result.get("output")` and
`result.get("intermediate", {})`. -/
structure RunState where
  output : Option PyVal
  intermediate : List (String × PyVal)

/-- The record created at the top of `ExecutionService.execute` /
`execute_stream`: status `PENDING`, only `input_data` populated. -/
def newExecution (workflowId : Nat) (threadId : String) (input : PyVal) :
    Execution :=
  { workflowId := workflowId
    threadId := threadId
    status := .pending
    inputData := some input
    outputData := none
    errorMessage := none
    startedAt := none
    completedAt := none }

/-- The `# Mark as running` block of `execute` / `execute_stream`: set
status `RUNNING` and `started_at`. -/
def markRunning (t : Nat) (e : Execution) : Execution :=
  { e with status := .running, startedAt := some t }

/-- The `output_data` dict written on completion:
`{"output": result.get("output"), "intermediate": result.get("intermediate", {})}`. -/
def runOutputData (r : RunState) : PyVal :=
  .vDict [("output", r.output.getD .vNone), ("intermediate", .vDict r.intermediate)]

/-- The tail of `ExecutionService.execute`: on a successful graph run mark
the record `COMPLETED` with `output_data`; if the run raised, mark it
`FAILED` with `error_message` (the `except` block). -/
def finishExecution (t : Nat) (res : Except String RunState) (e : Execution) :
    Execution :=
  match res with
  | .ok r =>
    { e with status := .completed, completedAt := some t,
             outputData := some (runOutputData r) }
  | .error msg =>
    { e with status := .failed, completedAt := some t,
             errorMessage := some msg }

/-- The definition `ExecutionService.cancel`: only `PENDING` and `RUNNING` records may be
cancelled; any other status raises
`ExecutionError("Cannot cancel execution with status ...")`. -/
def cancelExecution (t : Nat) (e : Execution) : Except String Execution :=
  if e.status = .pending ∨ e.status = .running then
    .ok { e with status := .cancelled, completedAt := some t }
  else
    .error ("Cannot cancel execution with status " ++ statusStr e.status)

/-- The `ExecutionCreate` payload `resume` hands back to `execute`. -/
structure ExecutionCreate where
  workflowId : Nat
  input : PyVal
  threadId : Option String

/-- The definition `ExecutionService.resume`: only `CANCELLED` and `FAILED` records may be
resumed; any other status raises
`ExecutionError("Cannot resume execution with status ...")`.  On success it
re-executes via `execute` with the same workflow, input and thread id,
which creates a fresh `Execution` record. -/
def resumeExecution (e : Execution) : Except String ExecutionCreate :=
  if e.status = .cancelled ∨ e.status = .failed then
    .ok { workflowId := e.workflowId
          input := e.inputData.getD (.vDict [])
          threadId := some e.threadId }
  else
    .error ("Cannot resume execution with status " ++ statusStr e.status)

/-- The plain (non-streaming) path `ExecutionService.execute`: create the
record, mark it running at `tStart`, run the graph, finish at `tEnd`.  The
second component lists the `ExecutionStep` rows this path inserts — the
method never constructs an `ExecutionStep`, so it is always `[]`. -/
def executePlain (workflowId : Nat) (threadId : String) (input : PyVal)
    (tStart tEnd : Nat) (res : Except String RunState) :
    Execution × List ExecutionStep :=
  (finishExecution tEnd res (markRunning tStart (newExecution workflowId threadId input)), [])

/-- One `node_complete` item of `graph.astream` in
`ExecutionService.execute_stream`: the node name, its output, and the wall
clock when the loop body records it (after the node has finished). -/
structure StreamEvent where
  nodeId : String
  output : PyVal
  recordedAt : Nat

/-- The `output_data` wrapping in the `execute_stream` loop body:
the serialized output if it is a dict, else `{"result": output}`
(`_serialize_output` is the identity on the modelled value domain). -/
def wrapOutput : PyVal → PyVal
  | .vDict d => .vDict d
  | v => .vDict [("result", v)]

/-- The `ExecutionStep` rows inserted by the `async for` loop of
`ExecutionService.execute_stream`: one per node event, created only after
the node completed, with `status=COMPLETED` and both timestamps taken at
recording time. -/
def streamSteps (events : List StreamEvent) : List ExecutionStep :=
  events.map (fun ev =>
    { nodeId := ev.nodeId
      status := .completed
      outputData := some (wrapOutput ev.output)
      errorMessage := none
      startedAt := some ev.recordedAt
      completedAt := some ev.recordedAt })

/-- Execution records the service layer can actually produce, starting from
a fresh record: it is marked running, finished by the graph run, or
cancelled while pending or running.  The clock hypotheses state that later
transitions carry a timestamp no smaller than `started_at`. -/
inductive Reaches : Execution → Prop
  | pending (workflowId : Nat) (threadId : String) (input : PyVal) :
      Reaches (newExecution workflowId threadId input)
  | running (t : Nat) (e : Execution) :
      Reaches e → e.status = .pending → Reaches (markRunning t e)
  | finished (t : Nat) (res : Except String RunState) (e : Execution) :
      Reaches e → e.status = .running →
      (∀ s, e.startedAt = some s → s ≤ t) →
      Reaches (finishExecution t res e)
  | cancelled (t : Nat) (e e' : Execution) :
      Reaches e →
      (∀ s, e.startedAt = some s → s ≤ t) →
      cancelExecution t e = .ok e' → Reaches e'

/-! ## Parallel fan-out and join (`workflows/nodes/parallel_node.py`) -/

/-- The loop of the `first` strategy in `create_join_node`: take the first
value that `is not None`, else `None`. -/
def firstNonNone : List PyVal → PyVal
  | [] => .vNone
  | .vNone :: rest => firstNonNone rest
  | v :: _ => v

/-- The strategy dispatch of `join_aggregator` in `create_join_node`,
applied to the full `state.get("intermediate", {})` dict.  Unknown
strategies default to a copy of the dict (`dict(intermediate)`). -/
def joinAggregate (strategy : String) (intermediate : List (String × PyVal)) :
    PyVal :=
  if strategy = "merge" then
    .vDict (intermediate.foldl
      (fun acc kv =>
        match kv.2 with
        | .vDict entries => dictUpdate acc entries
        | v => dictSet acc kv.1 v)
      [])
  else if strategy = "list" then
    .vList (intermediate.map (·.2))
  else if strategy = "concat" then
    .vStr (String.intercalate "\n"
      ((intermediate.map (·.2)).filter (fun v => !v.isNoneV) |>.map pyStr))
  else if strategy = "first" then
    firstNonNone (intermediate.map (·.2))
  else
    .vDict intermediate

/-- The state update returned by `join_aggregator`:
`{output_key: aggregated, "output": aggregated}`. -/
def joinNodeUpdate (strategy outputKey : String) (state : WState) :
    List (String × PyVal) :=
  let aggregated := joinAggregate strategy state.intermediate
  [(outputKey, aggregated), ("output", aggregated)]

/-- The definition `state.get(key)` on the modelled state dict, for the dynamic fan-out
lookup in `parallel_dispatcher` (base keys plus the two parallel keys). -/
def stateGet (state : WState) (key : String) : Option PyVal :=
  if key = "input" then some state.input
  else if key = "messages" then some (.vList state.messages)
  else if key = "intermediate" then some (.vDict state.intermediate)
  else if key = "output" then state.output
  else if key = "current_node" then state.currentNode.map .vStr
  else if key = "error" then state.error.map .vStr
  else if key = "metadata" then some (.vDict state.metadata)
  else if key = "parallel_item" then state.parallelItem
  else if key = "parallel_index" then state.parallelIndex.map (fun i => .vInt i)
  else none

/-- The definition `parallel_dispatcher` from `create_parallel_node`: the static path sends
the same state object to every target; the dynamic path (`fan_out_key` set)
shallow-copies the state per item, injecting `parallel_item`,
`parallel_index` and the updated `metadata` (the inner containers, such as
`intermediate`, stay shared with the original). -/
def parallelDispatcher (parallelNodes : List String)
    (fanOutKey : Option String) (state : WState) : List (String × WState) :=
  match fanOutKey with
  | none => parallelNodes.map (fun target => (target, state))
  | some key =>
    let items :=
      match stateGet state key with
      | some v => some v
      | none =>
        match state.input with
        | .vDict d => dictGet d key
        | _ => none
    match items with
    | some (.vList xs) =>
      (xs.enum).flatMap (fun iv =>
        parallelNodes.map (fun target =>
          (target,
           { state with
               parallelItem := some iv.2
               parallelIndex := some iv.1
               metadata :=
                 dictSet (dictSet state.metadata "parallel_item" iv.2)
                   "parallel_index" (.vInt iv.1) })))
    | _ => []

/-! ## Conditional routing (`workflows/nodes/router_node.py`) -/

/-- One entry of `router_config["routes"]`.  The condition is the Python
expression string; its evaluation with `eval(condition, {"__builtins__": {}},
{"state": state})` either raises or yields a value, which the shallow
embedding represents as a function into `Except`. -/
structure Route where
  cond : WState → Except String PyVal
  target : String

/-- The `router` closure from `create_router_node`: walk the routes in
declaration order; a condition that evaluates truthy selects its target; a
condition that raises is skipped (`except Exception: continue`); if no route
matches, return the default target. -/
def routerRun (routes : List Route) (defaultTarget : String) (state : WState) :
    String :=
  match routes with
  | [] => defaultTarget
  | r :: rest =>
    match r.cond state with
    | .ok v => if truthy v then r.target else routerRun rest defaultTarget state
    | .error _ => routerRun rest defaultTarget state

/-! ## Agent tool loop (`workflows/nodes/agent_node.py`, `agents/executor.py`) -/

/-- The definition `MAX_TOOL_ITERATIONS` (the same constant in `agent_node.py` and
`AgentExecutor`). -/
def MAX_TOOL_ITERATIONS : Nat := 10

/-- A model response: its text content and the names of the tool calls it
requests (empty when the model is done). -/
structure AIMessage where
  content : String
  toolCalls : List String
  deriving DecidableEq, Repr

/-- The loop of `_run_tool_loop` in `agent_node.py`.  The model is
abstracted as the sequence of responses it returns to successive
invocations (`model k` is the response to the `k`-th call); `fuel` is the
remaining `range(MAX_TOOL_ITERATIONS)` iterations and `calls` the number of
invocations made so far.  Each iteration stops if the current response has
no tool calls, else executes the tools and re-invokes the model. -/
def runToolLoopAux (model : Nat → AIMessage) :
    Nat → Nat → AIMessage → AIMessage
  | 0, _, response => response
  | fuel + 1, calls, response =>
    if response.toolCalls = [] then response
    else runToolLoopAux model fuel (calls + 1) (model (calls + 1))

/-- The definition `_run_tool_loop`: invoke the model once, then run up to
`MAX_TOOL_ITERATIONS` tool-calling rounds, and return the last response
as-is — even when it still requests tool calls. -/
def runToolLoop (model : Nat → AIMessage) : AIMessage :=
  runToolLoopAux model MAX_TOOL_ITERATIONS 0 (model 0)

/-- The definition `_extract_output` on the looped response (`response.content`), i.e. the
output of the workflow agent node built by `create_agent_node`. -/
def agentNodeOutput (model : Nat → AIMessage) : String :=
  (runToolLoop model).content

/-- The definition `AgentExecutionResult` from `agents/executor.py`, restricted to the
fields the claims mention (`output` and `metadata["iterations"]`). -/
structure AgentExecutionResult where
  output : String
  iterations : Nat
  deriving DecidableEq, Repr

/-- The `while iteration < self.MAX_TOOL_ITERATIONS` loop of
`AgentExecutor.execute`: each round calls the provider; a response without
tool calls returns its content with `iterations = iteration + 1`; when the
bound is exhausted, the sentinel result is returned with
`iterations = MAX_TOOL_ITERATIONS`. -/
def executorLoop (provider : Nat → AIMessage) :
    Nat → Nat → AgentExecutionResult
  | 0, iteration => { output := "Max tool iterations reached", iterations := iteration }
  | fuel + 1, iteration =>
    let response := provider iteration
    if response.toolCalls = [] then
      { output := response.content, iterations := iteration + 1 }
    else
      executorLoop provider fuel (iteration + 1)

/-- The definition `AgentExecutor.execute`, abstracted over the provider responses. -/
def executorExecute (provider : Nat → AIMessage) : AgentExecutionResult :=
  executorLoop provider MAX_TOOL_ITERATIONS 0

/-- The definition `_build_state_updates` from `agent_node.py`.  The Python body does
`intermediate = state.get("intermediate", {})` followed by
`intermediate[agent_name] = output`, which mutates the dict aliased by the
caller's state in place.  The first component is the caller-visible state
after that mutation; the second is the returned update dict
`{"current_node": agent_name, "intermediate": intermediate, "output": output}`,
whose `intermediate` is the very same (mutated) dict. -/
def buildStateUpdates (state : WState) (agentName : String) (output : PyVal) :
    WState × (String × List (String × PyVal) × PyVal) :=
  let intermediate := dictSet state.intermediate agentName output
  ({ state with intermediate := intermediate },
   (agentName, intermediate, output))

/-! ## Workflow validation (`services/workflow_service.py`) and compilation
(`workflows/compiler.py`) -/

/-- The definition `NodeType` from `database/models/workflow.py`. -/
inductive NodeType where
  | agent : NodeType
  | router : NodeType
  | parallel : NodeType
  | join : NodeType
  | subgraph : NodeType
  deriving DecidableEq, Repr

/-- A `WorkflowNode` row, restricted to the fields validation and
compilation read. -/
structure WNode where
  nodeId : String
  nodeType : NodeType
  agentId : Option Nat
  subgraphWorkflowId : Option Nat
  parallelNodes : List String
  deriving DecidableEq, Repr

/-- A `WorkflowEdge` row. -/
structure WEdge where
  sourceNode : String
  targetNode : String
  deriving DecidableEq, Repr

/-- A workflow definition as `_validate_workflow` and the compiler see it. -/
structure WorkflowDef where
  nodes : List WNode
  edges : List WEdge
  deriving DecidableEq, Repr

/-- The edge loop of `WorkflowService._validate_workflow`: every edge source
must be `__start__` or a known node id, every target `__end__` or a known
node id; the first offender raises `ValidationError`. -/
def checkEdges (nodeIds : List String) : List WEdge → Except String Unit
  | [] => .ok ()
  | e :: rest =>
    if e.sourceNode ≠ "__start__" ∧ e.sourceNode ∉ nodeIds then
      .error ("Edge source " ++ e.sourceNode ++ " references unknown node")
    else if e.targetNode ≠ "__end__" ∧ e.targetNode ∉ nodeIds then
      .error ("Edge target " ++ e.targetNode ++ " references unknown node")
    else checkEdges nodeIds rest

/-- The definition `WorkflowService._validate_workflow`.  It performs exactly three
checks: duplicate node ids, edge endpoints, and (distinct) agent ids all
existing in the agents table (`existingAgents`).  It never reads
`subgraph_workflow_id`. -/
def validateWorkflow (existingAgents : List Nat) (w : WorkflowDef) :
    Except String Unit :=
  let nodeIds := w.nodes.map (·.nodeId)
  if nodeIds.dedup.length ≠ w.nodes.length then
    .error "Duplicate node IDs found"
  else
    match checkEdges nodeIds w.edges with
    | .error msg => .error msg
    | .ok _ =>
      if ((w.nodes.filterMap (·.agentId)).dedup).all (· ∈ existingAgents) then
        .ok ()
      else
        .error "One or more agent IDs are invalid"

/-- The per-node part of `WorkflowCompiler._create_node_function`, with the
recursive sub-graph compilation abstracted as `recurse`: an agent node needs
an `agent_id` that exists, a sub-graph node needs a `subgraph_workflow_id`
and compiles the referenced workflow via `self.compile`
(`_create_subgraph_node`, with no cycle guard); other node types always
build. -/
def compileNodeList (existingAgents : List Nat) (recurse : Nat → Option Unit) :
    List WNode → Option Unit
  | [] => some ()
  | n :: rest =>
    match n.nodeType with
    | .agent =>
      match n.agentId with
      | some aid =>
        if aid ∈ existingAgents then compileNodeList existingAgents recurse rest
        else none
      | none => none
    | .subgraph =>
      match n.subgraphWorkflowId with
      | some sid =>
        match recurse sid with
        | some _ => compileNodeList existingAgents recurse rest
        | none => none
      | none => none
    | _ => compileNodeList existingAgents recurse rest

/-- The definition `WorkflowCompiler.compile`, with recursion depth made explicit: `store`
is the workflows table, `fuel` bounds the recursion through
`_create_subgraph_node`.  `none` means compilation does not succeed within
the given recursion budget (workflow missing, node invalid, or budget
exhausted).  The real method has no recursion bound at all, so a cyclic
sub-graph inclusion recurses without terminating — here: fails for every
`fuel`. -/
def compileFuel (store : Nat → Option WorkflowDef) (existingAgents : List Nat) :
    Nat → Nat → Option Unit
  | 0, _ => none
  | fuel + 1, workflowId =>
    match store workflowId with
    | none => none
    | some w =>
      compileNodeList existingAgents
        (fun sid => compileFuel store existingAgents fuel sid) w.nodes

/-! ## Concrete fixtures and claim-side predicates -/

/-- A fresh workflow state, as `execute` builds it for an empty input. -/
def emptyState : WState :=
  { input := .vDict []
    messages := []
    intermediate := []
    output := none
    currentNode := none
    error := none
    metadata := []
    parallelItem := none
    parallelIndex := none }

/-- An intermediate map holding the output of an earlier (non-sibling) node
`"earlier"` alongside those of the two parallel siblings `"s1"`, `"s2"`. -/
def interC4 : List (String × PyVal) :=
  [("earlier", .vStr "x"), ("s1", .vStr "a"), ("s2", .vStr "b")]

/-- The state seen by a join node after the fan-in, with `interC4` as its
intermediate map. -/
def stateC4 : WState := { emptyState with intermediate := interC4 }

/-- The `list` strategy as the spec words it: the sibling outputs only, in
sibling declaration order. -/
def joinListClaimed (siblings : List String)
    (intermediate : List (String × PyVal)) : PyVal :=
  .vList (siblings.filterMap (fun k => dictGet intermediate k))

/-- The `first` strategy as the spec words it: the first non-null sibling
output in sibling declaration order. -/
def joinFirstClaimed (siblings : List String)
    (intermediate : List (String × PyVal)) : PyVal :=
  firstNonNone (siblings.filterMap (fun k => dictGet intermediate k))

/-- Independent characterisation of the `first` strategy over the whole
intermediate map: the first value that is not `None`, via `find?`. -/
def joinFirstSpec (intermediate : List (String × PyVal)) : PyVal :=
  ((intermediate.map Prod.snd).find? (fun v => !v.isNoneV)).getD .vNone

/-- A model that requests a tool call on every invocation, answering the
`k`-th call with content `"resp{k}"`. -/
def modelAllTools : Nat → AIMessage :=
  fun n => { content := "resp" ++ toString n, toolCalls := ["search"] }

/-- A route whose condition raises at evaluation time. -/
def raisingRoute : Route :=
  { cond := fun _ => .error "name score is not defined", target := "t1" }

/-- A route whose condition evaluates truthy. -/
def matchingRoute : Route :=
  { cond := fun _ => .ok (.vBool true), target := "t2" }

/-- A route whose condition evaluates falsy. -/
def falsyRoute : Route :=
  { cond := fun _ => .ok (.vBool false), target := "t3" }

/-- A workflow consisting of one sub-graph node that references workflow id
`0` — the id this very workflow is stored under in `cyclicStore`: a direct
sub-graph inclusion cycle. -/
def cyclicWorkflow : WorkflowDef :=
  { nodes := [{ nodeId := "inner"
                nodeType := .subgraph
                agentId := none
                subgraphWorkflowId := some 0
                parallelNodes := [] }]
    edges := [{ sourceNode := "__start__", targetNode := "inner" },
              { sourceNode := "inner", targetNode := "__end__" }] }

/-- A workflows table holding `cyclicWorkflow` under id `0`. -/
def cyclicStore : Nat → Option WorkflowDef :=
  fun wid => if wid = 0 then some cyclicWorkflow else none

/-- Rewrite every node's `subgraph_workflow_id` through `f`, leaving all
other fields alone. -/
def setSubgraphIds (f : Option Nat → Option Nat) (w : WorkflowDef) :
    WorkflowDef :=
  { w with
    nodes := w.nodes.map (fun n =>
      { n with subgraphWorkflowId := f n.subgraphWorkflowId }) }

/-- A successful one-node graph run producing output `"done"`. -/
def runC9 : RunState :=
  { output := some (.vStr "done"), intermediate := [("A", .vStr "done")] }

/-- Claim-side predicate for C9: every dispatched node has a recorded
`ExecutionStep`. -/
def stepsCoverNodes (nodes : List String) (steps : List ExecutionStep) : Prop :=
  ∀ n ∈ nodes, ∃ st ∈ steps, st.nodeId = n

/-- The record `cancel` produces when an execution is cancelled while still
`PENDING` (never started): both payload columns and `started_at` are null. -/
def cancelledFromPending : Execution :=
  { newExecution 1 "exec_t" (.vDict []) with
      status := .cancelled, completedAt := some 5 }

/-- A completed execution produced by the plain `execute` path. -/
def completedExec : Execution :=
  finishExecution 5 (.ok runC9) (markRunning 3 (newExecution 1 "exec_t" (.vDict [])))

/-- Claim-side predicate for C1, following the claim's words: `started_at`
is set, `started_at ≤ completed_at`, exactly one of `output_data` /
`error_message` is non-null, and `output_data` is non-null iff the status is
`completed`. -/
def claimTerminal (e : Execution) : Prop :=
  (∃ s, e.startedAt = some s) ∧
  (∀ s c, e.startedAt = some s → e.completedAt = some c → s ≤ c) ∧
  ((e.outputData ≠ none ∧ e.errorMessage = none) ∨
   (e.outputData = none ∧ e.errorMessage ≠ none)) ∧
  (e.outputData ≠ none ↔ e.status = .completed)

/-- The record-level invariant the service operations actually maintain,
per status. -/
def execInvariant (e : Execution) : Prop :=
  (e.status = .pending →
     e.startedAt = none ∧ e.completedAt = none ∧
     e.outputData = none ∧ e.errorMessage = none) ∧
  (e.status = .running →
     (∃ s, e.startedAt = some s) ∧ e.completedAt = none ∧
     e.outputData = none ∧ e.errorMessage = none) ∧
  (e.status = .completed →
     (∃ s c, e.startedAt = some s ∧ e.completedAt = some c ∧ s ≤ c) ∧
     e.outputData ≠ none ∧ e.errorMessage = none) ∧
  (e.status = .failed →
     (∃ s c, e.startedAt = some s ∧ e.completedAt = some c ∧ s ≤ c) ∧
     e.outputData = none ∧ e.errorMessage ≠ none) ∧
  (e.status = .cancelled →
     e.outputData = none ∧ e.errorMessage = none ∧
     (∃ c, e.completedAt = some c) ∧
     (∀ s c, e.startedAt = some s → e.completedAt = some c → s ≤ c))

/-! ## Claims -/

/-- Folding a sequence of `None` updates through `_take_last` leaves the
accumulated value untouched. -/
theorem takeLast_fold_none (acc : Option PyVal) (updates : List (Option PyVal))
    (h : ∀ u ∈ updates, u = none) : updates.foldl takeLast acc = acc := by
  induction updates generalizing acc with
  | nil => rfl
  | cons u rest ih =>
    have hu : u = none := h u (by simp)
    subst hu
    exact ih acc (fun u hu => h u (by simp [hu]))

/-- A key that holds a value keeps holding one through any `_take_last`
fold. -/
theorem takeLast_fold_isSome (acc : Option PyVal)
    (updates : List (Option PyVal)) (h : acc.isSome = true) :
    (updates.foldl takeLast acc).isSome = true := by
  induction updates generalizing acc with
  | nil => exact h
  | cons u rest ih =>
    cases u with
    | none => exact ih acc h
    | some v => exact ih (some v) rfl

/-- C10: for the state keys `output`, `current_node` and `error`,
`WorkflowState` binds the `_take_last` reducer, and that reducer satisfies
`R(existing, None) = existing` and `R(existing, v) = v` for non-None `v`;
consequently folding any sequence of `None` updates is the identity, and a
key holding a non-None value can never be cleared by a `None` update. -/
theorem c10_take_last_reducer :
    stateKeyReducer "output" = .takeLastR ∧
    stateKeyReducer "current_node" = .takeLastR ∧
    stateKeyReducer "error" = .takeLastR ∧
    (∀ existing, takeLast existing none = existing) ∧
    (∀ existing v, takeLast existing (some v) = some v) ∧
    (∀ (acc : Option PyVal) (updates : List (Option PyVal)),
       (∀ u ∈ updates, u = none) → updates.foldl takeLast acc = acc) ∧
    (∀ (acc : Option PyVal) (updates : List (Option PyVal)),
       acc.isSome = true → (updates.foldl takeLast acc).isSome = true) :=
  ⟨rfl, rfl, rfl, fun _ => rfl, fun _ _ => rfl,
   takeLast_fold_none, takeLast_fold_isSome⟩

/-- C10 witness: folding `None` updates into a key that holds a value
leaves the value untouched. -/
theorem c10_witness :
    [(none : Option PyVal), none].foldl takeLast (some (.vStr "v")) =
      some (.vStr "v") :=
  c10_take_last_reducer.2.2.2.2.2.1 (some (.vStr "v")) [none, none]
    (by intro u hu; simpa using hu)

/-- Helper for C4: the loop of the `first` strategy agrees with a `find?`
of the first non-None value. -/
theorem firstNonNone_eq_find (xs : List PyVal) :
    firstNonNone xs = (xs.find? (fun v => !v.isNoneV)).getD .vNone := by
  induction xs with
  | nil => rfl
  | cons v rest ih =>
    cases v with
    | vNone => simpa [firstNonNone, List.find?, PyVal.isNoneV] using ih
    | vBool b => simp [firstNonNone, List.find?, PyVal.isNoneV]
    | vInt n => simp [firstNonNone, List.find?, PyVal.isNoneV]
    | vStr s => simp [firstNonNone, List.find?, PyVal.isNoneV]
    | vList l => simp [firstNonNone, List.find?, PyVal.isNoneV]
    | vDict d => simp [firstNonNone, List.find?, PyVal.isNoneV]

/-- C4 counterexample: with intermediate `{earlier: "x", s1: "a", s2: "b"}`
and siblings `[s1, s2]`, the `list` strategy returns all three values —
including the non-sibling `"x"` — and the `first` strategy returns `"x"`,
not the first sibling output `"a"`: the aggregator is not restricted to the
join's upstream sibling keys. -/
theorem c4_counterexample :
    joinAggregate "list" interC4 = .vList [.vStr "x", .vStr "a", .vStr "b"] ∧
    joinListClaimed ["s1", "s2"] interC4 = .vList [.vStr "a", .vStr "b"] ∧
    joinAggregate "list" interC4 ≠ joinListClaimed ["s1", "s2"] interC4 ∧
    joinNodeUpdate "first" "parallel_results" stateC4 =
      [("parallel_results", .vStr "x"), ("output", .vStr "x")] ∧
    joinFirstClaimed ["s1", "s2"] interC4 = .vStr "a" := by
  refine ⟨rfl, rfl, ?_, rfl, rfl⟩
  intro h
  rw [show joinAggregate "list" interC4 =
        .vList [.vStr "x", .vStr "a", .vStr "b"] from rfl,
      show joinListClaimed ["s1", "s2"] interC4 =
        .vList [.vStr "a", .vStr "b"] from rfl] at h
  simp at h

/-- C4 (amended): the join aggregator computes from the *entire*
`state.intermediate` map, not a sibling-restricted view: `list` collects
every value in map insertion order, and `first` returns the first non-None
value of the whole map in insertion order. -/
theorem c4_join_uses_whole_intermediate (state : WState) (outputKey : String) :
    joinNodeUpdate "list" outputKey state =
      [(outputKey, .vList (state.intermediate.map Prod.snd)),
       ("output", .vList (state.intermediate.map Prod.snd))] ∧
    joinNodeUpdate "first" outputKey state =
      [(outputKey, joinFirstSpec state.intermediate),
       ("output", joinFirstSpec state.intermediate)] := by
  constructor
  · rfl
  · simp [joinNodeUpdate, joinAggregate, joinFirstSpec,
      firstNonNone_eq_find]

/-- Helper for C5: when every model response requests tool calls, the
`_run_tool_loop` recursion just burns its `range(MAX_TOOL_ITERATIONS)`
budget and ends on the response to call `calls + fuel`. -/
theorem runToolLoopAux_all_tools (model : Nat → AIMessage)
    (h : ∀ n, (model n).toolCalls ≠ []) :
    ∀ fuel calls,
      runToolLoopAux model fuel calls (model calls) = model (calls + fuel) := by
  intro fuel
  induction fuel with
  | zero => intro calls; rfl
  | succ n ih =>
    intro calls
    rw [runToolLoopAux, if_neg (h calls)]
    rw [ih (calls + 1)]
    congr 1
    omega

/-- Helper for C5: when every provider response requests tool calls,
`AgentExecutor.execute` runs its `while` loop to exhaustion and returns the
sentinel with `iterations = iteration + fuel`. -/
theorem executorLoop_all_tools (provider : Nat → AIMessage)
    (h : ∀ n, (provider n).toolCalls ≠ []) :
    ∀ fuel iteration,
      executorLoop provider fuel iteration =
        { output := "Max tool iterations reached"
          iterations := iteration + fuel } := by
  intro fuel
  induction fuel with
  | zero => intro iteration; rfl
  | succ n ih =>
    intro iteration
    rw [executorLoop]
    simp only [if_neg (h iteration)]
    rw [ih (iteration + 1)]
    congr 1
    omega

/-- C5 counterexample: against a model that requests tool calls on every
round, the workflow agent node (`_run_tool_loop` + `_extract_output` in
`agent_node.py`) outputs the content of the final model response
(`"resp10"`), not the sentinel `"Max tool iterations reached"`. -/
theorem c5_counterexample :
    agentNodeOutput modelAllTools = "resp10" ∧
    agentNodeOutput modelAllTools ≠ "Max tool iterations reached" := by
  constructor
  · rfl
  · intro h
    rw [show agentNodeOutput modelAllTools = "resp10" from rfl] at h
    simp at h

/-- C5 (amended): the sentinel belongs to `AgentExecutor.execute` only.
When the model requests tool calls on every round, the workflow agent node
returns the content of the `MAX_TOOL_ITERATIONS`-th re-invocation's
response as its output, while `AgentExecutor.execute` returns the sentinel
`"Max tool iterations reached"` with `iterations = MAX_TOOL_ITERATIONS`.
(In the streaming path every recorded step is `completed`, so the
`completed`-status half of the claim holds on both paths.) -/
theorem c5_agent_loop_bound (model : Nat → AIMessage)
    (h : ∀ n, (model n).toolCalls ≠ []) :
    agentNodeOutput model = (model MAX_TOOL_ITERATIONS).content ∧
    executorExecute model =
      { output := "Max tool iterations reached"
        iterations := MAX_TOOL_ITERATIONS } := by
  constructor
  · unfold agentNodeOutput runToolLoop
    rw [runToolLoopAux_all_tools model h MAX_TOOL_ITERATIONS 0, Nat.zero_add]
  · unfold executorExecute
    rw [executorLoop_all_tools model h MAX_TOOL_ITERATIONS 0, Nat.zero_add]

/-- C5 witness: the amended statement at the concrete all-tool-calls
model. -/
theorem c5_witness :
    agentNodeOutput modelAllTools = (modelAllTools MAX_TOOL_ITERATIONS).content ∧
    executorExecute modelAllTools =
      { output := "Max tool iterations reached"
        iterations := MAX_TOOL_ITERATIONS } :=
  c5_agent_loop_bound modelAllTools (fun n => by simp [modelAllTools])

/-- C6 counterexample: in the route group `[raisingRoute → t1,
matchingRoute → t2]` with default `low`, the first condition raises; the
router does not take the default — it continues to the next route and
returns `t2`.  Moreover the steps recorded by the streaming executor never
carry an `error_message`, so the evaluation error is not recorded
anywhere. -/
theorem c6_counterexample :
    routerRun [raisingRoute, matchingRoute] "low" emptyState = "t2" ∧
    routerRun [raisingRoute, matchingRoute] "low" emptyState ≠ "low" ∧
    (streamSteps [{ nodeId := "router", output := .vStr "t2", recordedAt := 4 }]).map
        (·.errorMessage) = [none] := by
  refine ⟨rfl, ?_, rfl⟩
  intro h
  rw [show routerRun [raisingRoute, matchingRoute] "low" emptyState = "t2"
        from rfl] at h
  simp at h

/-- C6 (amended): a condition that raises at evaluation is skipped exactly
like a falsy one — the router moves on to the next route, and the default
target is returned only when every route's condition raises or evaluates
falsy; the error itself is swallowed (`except Exception: continue`) and
recorded nowhere. -/
theorem c6_eval_error_skips_route :
    (∀ (r : Route) (rest : List Route) (d : String) (s : WState) (msg : String),
       r.cond s = .error msg →
       routerRun (r :: rest) d s = routerRun rest d s) ∧
    (∀ (routes : List Route) (d : String) (s : WState),
       (∀ r ∈ routes,
          (∃ msg, r.cond s = .error msg) ∨
          (∃ v, r.cond s = .ok v ∧ truthy v = false)) →
       routerRun routes d s = d) := by
  constructor
  · intro r rest d s msg hmsg
    rw [routerRun, hmsg]
  · intro routes d s h
    induction routes with
    | nil => rfl
    | cons r rest ih =>
      have hr := h r (by simp)
      have hrest := ih (fun r hr => h r (by simp [hr]))
      rcases hr with ⟨msg, hmsg⟩ | ⟨v, hv, hfalse⟩
      · rw [routerRun, hmsg, hrest]
      · rw [routerRun, hv]
        simp [hfalse, hrest]

/-- C6 witness: the amended statement at the concrete routes — the raising
route is skipped, and a group of only raising/falsy routes falls through to
the default. -/
theorem c6_witness :
    routerRun [raisingRoute, matchingRoute] "low" emptyState =
      routerRun [matchingRoute] "low" emptyState ∧
    routerRun [raisingRoute, falsyRoute] "low" emptyState = "low" := by
  constructor
  · exact c6_eval_error_skips_route.1 raisingRoute [matchingRoute] "low"
      emptyState "name score is not defined" rfl
  · refine c6_eval_error_skips_route.2 [raisingRoute, falsyRoute] "low"
      emptyState ?_
    intro r hr
    rw [List.mem_cons, List.mem_singleton] at hr
    rcases hr with h | h
    · subst h
      exact Or.inl ⟨"name score is not defined", rfl⟩
    · subst h
      exact Or.inr ⟨.vBool false, rfl, rfl⟩

/-- C7 counterexample: `cyclicWorkflow` is stored under workflow id `0` and
its only node is a sub-graph node referencing id `0` — a sub-graph
inclusion cycle — yet `_validate_workflow` accepts it: the validator checks
only duplicate node ids, edge endpoints and agent existence, and never
reads `subgraph_workflow_id`. -/
theorem c7_counterexample :
    cyclicStore 0 = some cyclicWorkflow ∧
    cyclicWorkflow.nodes.map (·.subgraphWorkflowId) = [some 0] ∧
    cyclicWorkflow.nodes.map (·.nodeType) = [NodeType.subgraph] ∧
    validateWorkflow [] cyclicWorkflow = .ok () :=
  ⟨rfl, rfl, rfl, rfl⟩

/-- C7 (amended): validation is entirely independent of sub-graph
references (rewriting every node's `subgraph_workflow_id` does not change
the verdict), and compiling the self-referencing workflow exhausts every
recursion budget: `WorkflowCompiler.compile` has no cycle guard, so a
sub-graph inclusion cycle makes it recurse without terminating. -/
theorem c7_no_subgraph_cycle_check :
    (∀ (agents : List Nat) (w : WorkflowDef) (f : Option Nat → Option Nat),
       validateWorkflow agents (setSubgraphIds f w) = validateWorkflow agents w) ∧
    (∀ fuel, compileFuel cyclicStore [] fuel 0 = none) := by
  constructor
  · intro agents w f
    have hids : (setSubgraphIds f w).nodes.map (·.nodeId) =
        w.nodes.map (·.nodeId) := by
      simp [setSubgraphIds, List.map_map]
    have hagents : (setSubgraphIds f w).nodes.filterMap (·.agentId) =
        w.nodes.filterMap (·.agentId) := by
      rw [setSubgraphIds]
      simp only [List.filterMap_map]
      rfl
    have hlen : (setSubgraphIds f w).nodes.length = w.nodes.length := by
      simp [setSubgraphIds]
    have hedges : (setSubgraphIds f w).edges = w.edges := rfl
    rw [validateWorkflow, validateWorkflow, hids, hagents, hlen, hedges]
  · intro fuel
    induction fuel with
    | zero => rfl
    | succ n ih =>
      rw [compileFuel]
      simp [cyclicStore, cyclicWorkflow, compileNodeList, ih]

/-- Helper for C8: writing a key that is absent from the dict appends a new
entry. -/
theorem dictSet_fresh (d : List (String × PyVal)) (k : String) (v : PyVal)
    (h : dictGet d k = none) : dictSet d k v = d ++ [(k, v)] := by
  rw [dictGet, Option.map_eq_none', List.find?_eq_none] at h
  have hany : d.any (fun p => p.1 = k) = false := by
    rw [List.any_eq_false]
    intro p hp
    exact h p hp
  rw [dictSet, hany]
  simp

/-- C8 counterexample: the static fan-out hands every sibling the very same
state, and `_build_state_updates` writes the agent's output into the input
state's intermediate map in place — the caller-visible intermediate map
after the call differs from the one before it. -/
theorem c8_counterexample :
    parallelDispatcher ["x", "y"] none emptyState =
      [("x", emptyState), ("y", emptyState)] ∧
    (buildStateUpdates emptyState "x" (.vStr "out")).1.intermediate =
      [("x", .vStr "out")] ∧
    (buildStateUpdates emptyState "x" (.vStr "out")).1.intermediate ≠
      emptyState.intermediate := by
  refine ⟨rfl, rfl, ?_⟩
  intro h
  rw [show (buildStateUpdates emptyState "x" (.vStr "out")).1.intermediate =
        [("x", .vStr "out")] from rfl,
      show emptyState.intermediate = [] from rfl] at h
  simp at h

/-- C8 (amended): in a static fan-out all sibling payloads are the
identical state (no isolated copies), and the agent node's
`_build_state_updates` mutates the input state's intermediate map in place:
the returned update aliases the mutated map, which genuinely changes
whenever the agent's key was not present before. -/
theorem c8_shared_state_mutation :
    (∀ (nodes : List String) (s : WState) (a b : String × WState),
       a ∈ parallelDispatcher nodes none s →
       b ∈ parallelDispatcher nodes none s → a.2 = b.2) ∧
    (∀ (s : WState) (name : String) (out : PyVal),
       ((buildStateUpdates s name out).2).2.1 =
         (buildStateUpdates s name out).1.intermediate ∧
       (buildStateUpdates s name out).1.intermediate =
         dictSet s.intermediate name out) ∧
    (∀ (s : WState) (name : String) (out : PyVal),
       dictGet s.intermediate name = none →
       (buildStateUpdates s name out).1.intermediate ≠ s.intermediate) := by
  refine ⟨?_, ?_, ?_⟩
  · intro nodes s a b ha hb
    simp only [parallelDispatcher, List.mem_map] at ha hb
    obtain ⟨ta, _, hta⟩ := ha
    obtain ⟨tb, _, htb⟩ := hb
    rw [← hta, ← htb]
  · intro s name out
    exact ⟨rfl, rfl⟩
  · intro s name out h hEq
    rw [show (buildStateUpdates s name out).1.intermediate =
          dictSet s.intermediate name out from rfl,
        dictSet_fresh s.intermediate name out h] at hEq
    have hlen := congrArg List.length hEq
    simp at hlen

/-- C8 witness: the amended statement at a two-sibling static fan-out over
the empty state. -/
theorem c8_witness :
    (("x", emptyState) : String × WState).2 = (("y", emptyState) : String × WState).2 ∧
    (buildStateUpdates emptyState "agent" (.vStr "o")).1.intermediate ≠
      emptyState.intermediate := by
  constructor
  · exact c8_shared_state_mutation.1 ["x", "y"] emptyState ("x", emptyState)
      ("y", emptyState) (by simp [parallelDispatcher])
      (by simp [parallelDispatcher])
  · exact c8_shared_state_mutation.2.2 emptyState "agent" (.vStr "o") rfl

/-- C9 counterexample: the plain `execute` path runs the graph (here a
one-node run producing `"done"`) and records no `ExecutionStep` at all —
there is no step for the dispatched node `A`, let alone one opened with
status `running` at dispatch time.  In the streaming path the recorded
step is born `completed`. -/
theorem c9_counterexample :
    (executePlain 1 "exec_t" (.vDict []) 3 5 (.ok runC9)).2 = [] ∧
    ¬ stepsCoverNodes ["A"] (executePlain 1 "exec_t" (.vDict []) 3 5 (.ok runC9)).2 ∧
    (streamSteps [{ nodeId := "A", output := .vStr "done", recordedAt := 7 }]).map
        (·.status) = [.completed] := by
  refine ⟨rfl, ?_, rfl⟩
  intro h
  obtain ⟨st, hst, _⟩ := h "A" (by simp)
  simp [executePlain] at hst

/-- C9 (amended): the plain execution path records no per-node steps at
all; the streaming path records exactly one step per `node_complete` event,
after the node has finished, already in status `completed`, with no error
message and `started_at = completed_at` (both taken at recording time). -/
theorem c9_step_recording :
    (∀ (workflowId : Nat) (threadId : String) (input : PyVal) (tS tE : Nat)
       (res : Except String RunState),
       (executePlain workflowId threadId input tS tE res).2 = []) ∧
    (∀ (events : List StreamEvent),
       (streamSteps events).map (·.nodeId) = events.map (·.nodeId) ∧
       ∀ st ∈ streamSteps events,
         st.status = .completed ∧ st.errorMessage = none ∧
         st.startedAt = st.completedAt) := by
  constructor
  · intro _ _ _ _ _ _
    rfl
  · intro events
    constructor
    · rw [streamSteps, List.map_map]
      rfl
    · intro st hst
      simp only [streamSteps, List.mem_map] at hst
      obtain ⟨ev, _, hev⟩ := hst
      rw [← hev]
      exact ⟨rfl, rfl, rfl⟩

/-- C9 witness: the amended statement at a failed plain run and at a
concrete streamed `node_complete` event. -/
theorem c9_witness :
    (executePlain 1 "exec_w" (.vDict []) 0 1 (.error "boom")).2 = [] ∧
    ({ nodeId := "A", status := .completed,
       outputData := some (wrapOutput (.vStr "done")), errorMessage := none,
       startedAt := some 7, completedAt := some 7 } : ExecutionStep).status =
        .completed := by
  constructor
  · exact c9_step_recording.1 1 "exec_w" (.vDict []) 0 1 (.error "boom")
  · exact ((c9_step_recording.2
      [{ nodeId := "A", output := .vStr "done", recordedAt := 7 }]).2
      { nodeId := "A", status := .completed,
        outputData := some (wrapOutput (.vStr "done")), errorMessage := none,
        startedAt := some 7, completedAt := some 7 }
      (by simp [streamSteps])).1

/-- Helper for C1: every execution record the service operations can
produce satisfies the per-status invariant `execInvariant`. -/
theorem reaches_invariant (e : Execution) (he : Reaches e) : execInvariant e := by
  induction he with
  | pending wid tid input =>
    simp [execInvariant, newExecution]
  | running t e hr hp ih =>
    obtain ⟨hsa, hca, hod, hem⟩ := ih.1 hp
    refine ⟨?_, ?_, ?_, ?_, ?_⟩
    · intro h
      exact absurd h (by simp [markRunning])
    · intro _
      exact ⟨⟨t, rfl⟩, hca, hod, hem⟩
    · intro h
      exact absurd h (by simp [markRunning])
    · intro h
      exact absurd h (by simp [markRunning])
    · intro h
      exact absurd h (by simp [markRunning])
  | finished t res e hr hrun hclock ih =>
    obtain ⟨⟨s, hs⟩, hca, hod, hem⟩ := ih.2.1 hrun
    cases res with
    | ok r =>
      refine ⟨?_, ?_, ?_, ?_, ?_⟩
      · intro h
        exact absurd h (by simp [finishExecution])
      · intro h
        exact absurd h (by simp [finishExecution])
      · intro _
        exact ⟨⟨s, t, hs, rfl, hclock s hs⟩, by simp [finishExecution], hem⟩
      · intro h
        exact absurd h (by simp [finishExecution])
      · intro h
        exact absurd h (by simp [finishExecution])
    | error msg =>
      refine ⟨?_, ?_, ?_, ?_, ?_⟩
      · intro h
        exact absurd h (by simp [finishExecution])
      · intro h
        exact absurd h (by simp [finishExecution])
      · intro h
        exact absurd h (by simp [finishExecution])
      · intro _
        exact ⟨⟨s, t, hs, rfl, hclock s hs⟩, hod, by simp [finishExecution]⟩
      · intro h
        exact absurd h (by simp [finishExecution])
  | cancelled t e e' hr hclock hok ih =>
    rw [cancelExecution] at hok
    by_cases hC : e.status = .pending ∨ e.status = .running
    · rw [if_pos hC] at hok
      injection hok with hok
      subst hok
      have hfields : e.outputData = none ∧ e.errorMessage = none ∧
          (∀ s, e.startedAt = some s → s ≤ t) := by
        rcases hC with hp | hrn
        · obtain ⟨hsa, _, hod, hem⟩ := ih.1 hp
          exact ⟨hod, hem, fun s hs => hclock s hs⟩
        · obtain ⟨_, _, hod, hem⟩ := ih.2.1 hrn
          exact ⟨hod, hem, fun s hs => hclock s hs⟩
      obtain ⟨hod, hem, hst⟩ := hfields
      refine ⟨?_, ?_, ?_, ?_, ?_⟩
      · intro h
        exact absurd h (by simp)
      · intro h
        exact absurd h (by simp)
      · intro h
        exact absurd h (by simp)
      · intro h
        exact absurd h (by simp)
      · intro _
        refine ⟨hod, hem, ⟨t, rfl⟩, ?_⟩
        intro s c hsp hcp
        have hc : c = t := by
          simpa using hcp.symm
        subst hc
        exact hst s hsp
    · rw [if_neg hC] at hok
      exact absurd hok (by simp)

/-- C1 counterexample: cancelling a still-pending execution yields a
terminal (`cancelled`) record whose `started_at` is null and whose
`output_data` and `error_message` are *both* null — violating every part of
the claimed terminal-state invariant except the timestamp ordering. -/
theorem c1_counterexample :
    cancelExecution 5 (newExecution 1 "exec_t" (.vDict [])) =
      .ok cancelledFromPending ∧
    Reaches cancelledFromPending ∧
    isTerminal cancelledFromPending.status = true ∧
    ¬ claimTerminal cancelledFromPending := by
  have hok : cancelExecution 5 (newExecution 1 "exec_t" (.vDict [])) =
      .ok cancelledFromPending := rfl
  refine ⟨hok, ?_, rfl, ?_⟩
  · exact Reaches.cancelled 5 (newExecution 1 "exec_t" (.vDict []))
      cancelledFromPending (Reaches.pending 1 "exec_t" (.vDict []))
      (fun s hs => by simp [newExecution] at hs) hok
  · intro h
    obtain ⟨⟨s, hs⟩, _⟩ := h
    simp [cancelledFromPending, newExecution] at hs

/-- C1 (amended): for reachable executions the claimed invariant holds on
the `completed` and `failed` terminal statuses (`started_at ≤ completed_at`
with exactly one of `output_data` / `error_message` non-null, `output_data`
non-null iff completed), but a `cancelled` execution has *both* columns
null, and its `started_at` is null as well when it was cancelled while
still pending. -/
theorem c1_terminal_invariant (e : Execution) (he : Reaches e) :
    (e.status = .completed →
       (∃ s c, e.startedAt = some s ∧ e.completedAt = some c ∧ s ≤ c) ∧
       e.outputData ≠ none ∧ e.errorMessage = none) ∧
    (e.status = .failed →
       (∃ s c, e.startedAt = some s ∧ e.completedAt = some c ∧ s ≤ c) ∧
       e.outputData = none ∧ e.errorMessage ≠ none) ∧
    (e.status = .cancelled →
       e.outputData = none ∧ e.errorMessage = none ∧
       (∃ c, e.completedAt = some c) ∧
       (∀ s c, e.startedAt = some s → e.completedAt = some c → s ≤ c)) := by
  have h := reaches_invariant e he
  exact ⟨h.2.2.1, h.2.2.2.1, h.2.2.2.2⟩

/-- C1 witness: the amended invariant at a concrete completed execution. -/
theorem c1_witness :
    completedExec.outputData ≠ none ∧ completedExec.errorMessage = none := by
  have hre : Reaches completedExec :=
    Reaches.finished 5 (.ok runC9)
      (markRunning 3 (newExecution 1 "exec_t" (.vDict [])))
      (Reaches.running 3 (newExecution 1 "exec_t" (.vDict []))
        (Reaches.pending 1 "exec_t" (.vDict [])) rfl)
      rfl
      (fun s hs => by
        simp [markRunning, newExecution] at hs
        omega)
  exact ((c1_terminal_invariant completedExec hre).1 rfl).2

/-- C2 counterexample: `cancel` on a reachable already-cancelled execution
is not a no-op returning the record — it raises
`ExecutionError("Cannot cancel execution with status cancelled")`. -/
theorem c2_counterexample :
    Reaches cancelledFromPending ∧
    cancelledFromPending.status = .cancelled ∧
    cancelExecution 9 cancelledFromPending =
      .error "Cannot cancel execution with status cancelled" := by
  refine ⟨?_, rfl, rfl⟩
  exact Reaches.cancelled 5 (newExecution 1 "exec_t" (.vDict []))
    cancelledFromPending (Reaches.pending 1 "exec_t" (.vDict []))
    (fun s hs => by simp [newExecution] at hs) rfl

/-- C2 (amended): `cancel` succeeds only on `pending` or `running`
executions, setting status `cancelled` and `completed_at`; on every
terminal status (`completed`, `failed`, `cancelled`) it raises
`ExecutionError` with the status named in the message, changing nothing. -/
theorem c2_cancel_behaviour (t : Nat) (e : Execution) :
    ((e.status = .pending ∨ e.status = .running) →
       cancelExecution t e =
         .ok { e with status := .cancelled, completedAt := some t }) ∧
    (isTerminal e.status = true →
       cancelExecution t e =
         .error ("Cannot cancel execution with status " ++ statusStr e.status)) := by
  constructor
  · intro h
    rw [cancelExecution, if_pos h]
  · intro h
    rw [cancelExecution, if_neg]
    intro hc
    rcases hc with h1 | h1 <;> rw [h1] at h <;> simp [isTerminal] at h

/-- C2 witness: the amended statement at the concrete cancelled record. -/
theorem c2_witness :
    cancelExecution 9 cancelledFromPending =
      .error ("Cannot cancel execution with status " ++
        statusStr cancelledFromPending.status) :=
  (c2_cancel_behaviour 9 cancelledFromPending).2 rfl

/-- C3 counterexample: `resume` on a reachable completed execution is not a
no-op returning the existing record — it raises
`ExecutionError("Cannot resume execution with status completed")`. -/
theorem c3_counterexample :
    Reaches completedExec ∧
    completedExec.status = .completed ∧
    resumeExecution completedExec =
      .error "Cannot resume execution with status completed" := by
  refine ⟨?_, rfl, rfl⟩
  exact Reaches.finished 5 (.ok runC9)
    (markRunning 3 (newExecution 1 "exec_t" (.vDict [])))
    (Reaches.running 3 (newExecution 1 "exec_t" (.vDict []))
      (Reaches.pending 1 "exec_t" (.vDict [])) rfl)
    rfl
    (fun s hs => by
      simp [markRunning, newExecution] at hs
      omega)

/-- C3 (amended): `resume` is accepted only for `cancelled` or `failed`
executions, where it re-executes the workflow with the same input and
thread id (creating a new record via `execute`); on a `completed` execution
it raises `ExecutionError` and creates no new execution and no steps. -/
theorem c3_resume_behaviour (e : Execution) :
    (e.status = .completed →
       resumeExecution e =
         .error "Cannot resume execution with status completed") ∧
    ((e.status = .cancelled ∨ e.status = .failed) →
       resumeExecution e =
         .ok { workflowId := e.workflowId
               input := e.inputData.getD (.vDict [])
               threadId := some e.threadId }) := by
  constructor
  · intro h
    have hne : ¬ (e.status = .cancelled ∨ e.status = .failed) := by
      rw [h]
      simp
    rw [resumeExecution, if_neg hne, h]
    rfl
  · intro h
    rw [resumeExecution, if_pos h]

/-- C3 witness: the amended statement at the concrete completed record. -/
theorem c3_witness :
    resumeExecution completedExec =
      .error "Cannot resume execution with status completed" :=
  (c3_resume_behaviour completedExec).1 rfl
